import Mathlib

/-!
# smsups-dashboard: protocol codec, serial transport and poll loop

A shallow embedding of the Go sources `protocol/protocol.go`, `protocol/parser.go`,
`protocol/types.go`, `serial/serial.go` and the polling goroutine of `gui/dashboard.go`.

Modelling conventions.

* A Go `byte` is a `Fin 256`; a `[]byte` value is a `List Byte`.
* A Go `int16` is kept as its 16-bit pattern (a natural number reduced `% 65536`);
  the conversion `int(...)` reads the pattern in two's complement.
* A Go `float64` field holds a rational that stands for the `float64` nearest to it
  (`asF64`). The decoder's fields hold the exact quotient `v / 10`, for an integer `v` of
  magnitude at most `32768`, whose nearest `float64` is the value the code stores. The
  arithmetic of `ApplyFullPower` is `float64` arithmetic: every conversion, quotient and
  product is rounded to the nearest `float64`, ties to even (`roundF64`). Infinities and
  NaN are outside the model.
* A Go `error` is modelled by its message (the result of `Error()`), a `String`.
* Go strings built here contain ASCII only, so byte length and character count agree.
-/

namespace SmsUps

/-- A Go `byte`. -/
abbrev Byte := Fin 256

/-- A Go `error`, identified with its message. -/
abbrev Error := String

/-! ## protocol/types.go -/

/-- The struct `UPSData`, fields in declaration order. -/
structure UPSData where
  LastInputVac : ℚ
  InputVac : ℚ
  OutputVac : ℚ
  OutputPower : ℚ
  PowerNow : ℚ
  OutputHz : ℚ
  BatteryLevel : ℚ
  TemperatureC : ℚ
  BeepLigado : Bool
  ShutdownAtivo : Bool
  TesteAtivo : Bool
  UpsOk : Bool
  Boost : Bool
  ByPass : Bool
  BateriaBaixa : Bool
  BateriaEmUso : Bool
  NoData : Bool
  deriving DecidableEq, Repr

/-- The Go zero value of `UPSData`. -/
def UPSData.zero : UPSData :=
  { LastInputVac := 0, InputVac := 0, OutputVac := 0, OutputPower := 0, PowerNow := 0,
    OutputHz := 0, BatteryLevel := 0, TemperatureC := 0,
    BeepLigado := false, ShutdownAtivo := false, TesteAtivo := false, UpsOk := false,
    Boost := false, ByPass := false, BateriaBaixa := false, BateriaEmUso := false,
    NoData := false }

/-! ## Formatting helpers (`fmt`, `encoding/hex`) -/

/-- One lowercase hexadecimal digit, as produced by `%x` and `hex.EncodeToString`. -/
def hexDigit (n : Nat) : Char :=
  if n < 10 then Char.ofNat (48 + n) else Char.ofNat (87 + n)

/-- The two hexadecimal digits of a byte (`%02x`). -/
def byteHex (b : Byte) : List Char :=
  [hexDigit (b.val / 16), hexDigit (b.val % 16)]

/-- The call `hex.EncodeToString`, as a character list. -/
def hexChars : List Byte → List Char
  | [] => []
  | b :: bs => byteHex b ++ hexChars bs

/-- The call `hex.EncodeToString`. -/
def hexEncodeToString (data : List Byte) : String :=
  String.mk (hexChars data)

/-! ## protocol/protocol.go -/

/-- The package variable `QueryCommand`, as initialised. -/
def QueryCommand : List Byte := [0x51, 0xff, 0xff, 0xff, 0xff, 0xb3, 0x0d]

/-- The loop `for _, b := range data { sum += int(b) }`, started at `sum`. -/
def sumBytes (sum : Int) : List Byte → Int
  | [] => sum
  | b :: bs => sumBytes (sum + (b.val : Int)) bs

/-- The function `Checksum`. Go's `%` on `int` truncates towards zero (`Int.tmod`); the result
is the `byte(ret)` conversion, a reduction modulo 256. The running `sum` is an `int` of 64 bits
and cannot overflow for a slice of fewer than `2 ^ 55` bytes, so it is kept unbounded. -/
def Checksum (data : List Byte) : Byte :=
  let sum : Int := sumBytes 0 data
  let sum := Int.tmod sum 0x100
  let ret := 0x100 - sum
  let ret := if ret = 256 then 0 else ret
  ⟨(ret % 256).toNat % 256, Nat.mod_lt _ (by decide)⟩

/-! ## protocol/parser.go -/

/-- The constant `ResponseHeader`. -/
def ResponseHeader : Byte := 0x3d

/-- The closure `toInt16`: `int(int16(hi)<<8 | int16(lo))`. The shift is taken in 16 bits. -/
def toInt16 (hi lo : Byte) : Int :=
  let w : Nat := ((hi.val <<< 8) % 65536) ||| lo.val
  if w < 32768 then (w : Int) else (w : Int) - 65536

/-- The test `(status1 & (1 << k)) != 0`. -/
def flagBit (status1 : Byte) (k : Nat) : Bool :=
  (status1.val &&& (1 <<< k)) != 0

/-- The message of `fmt.Errorf("response too short: %d bytes", n)`. -/
def errTooShort (n : Nat) : Error :=
  "response too short: " ++ toString n ++ " bytes"

/-- The message of `fmt.Errorf("invalid header: expected 0x3d, got 0x%02x", b)`. -/
def errInvalidHeader (b : Byte) : Error :=
  "invalid header: expected 0x3d, got 0x" ++ String.mk (byteHex b)

/-- The index expression `raw[i]`. Every use below sits behind the guard `len(raw) >= 18`
with `i ≤ 15`, so the index is in range and the default is never returned. -/
def byteAt (raw : List Byte) (i : Nat) : Byte :=
  raw.getD i 0

/-- The function `ParseResponse`. -/
def ParseResponse (data : List Byte) : Except Error UPSData :=
  if data.length < 18 then
    .error (errTooShort data.length)
  else
    let raw := data
    if raw.length < 18 then
      .error (errTooShort raw.length)
    else if byteAt raw 0 ≠ ResponseHeader then
      .error (errInvalidHeader (byteAt raw 0))
    else
      let status1 := byteAt raw 15
      .ok { LastInputVac := (toInt16 (byteAt raw 1) (byteAt raw 2) : ℚ) / 10
            InputVac := (toInt16 (byteAt raw 3) (byteAt raw 4) : ℚ) / 10
            OutputVac := (toInt16 (byteAt raw 5) (byteAt raw 6) : ℚ) / 10
            OutputPower := (toInt16 (byteAt raw 7) (byteAt raw 8) : ℚ) / 10
            PowerNow := 0
            OutputHz := (toInt16 (byteAt raw 9) (byteAt raw 10) : ℚ) / 10
            BatteryLevel := (toInt16 (byteAt raw 11) (byteAt raw 12) : ℚ) / 10
            TemperatureC := (toInt16 (byteAt raw 13) (byteAt raw 14) : ℚ) / 10
            BateriaEmUso := flagBit status1 0
            BateriaBaixa := flagBit status1 1
            ByPass := flagBit status1 2
            Boost := flagBit status1 3
            UpsOk := flagBit status1 4
            TesteAtivo := flagBit status1 5
            ShutdownAtivo := flagBit status1 6
            BeepLigado := flagBit status1 7
            NoData := false }

/-! ### `float64` arithmetic -/

/-- The number of binary digits of `n`, by halving; `fuel = n` is always enough. -/
def bitLength : Nat → Nat → Nat
  | 0, _ => 0
  | fuel + 1, n => if n = 0 then 0 else bitLength fuel (n / 2) + 1

/-- The integer `e` with `2 ^ e ≤ n / d < 2 ^ (e + 1)`, for positive `n` and `d`. -/
def floorLog2Quot (n d : Nat) : Int :=
  let e : Int := (bitLength n n : Int) - (bitLength d d : Int)
  if 0 ≤ e then
    if d * 2 ^ e.toNat ≤ n then e else e - 1
  else
    if d ≤ n * 2 ^ (-e).toNat then e else e - 1

/-- The `float64` (IEEE 754 binary64) nearest to `q`, ties to even: 53 significant bits, with
the smallest exponent `-1022` (below it the spacing stays `2 ^ (-1074)`). A result of
magnitude `2 ^ 1024` or more, which the hardware replaces by an infinity, is outside the
model. -/
def roundF64 (q : ℚ) : ℚ :=
  if q = 0 then 0
  else
    let n := q.num.natAbs
    let d := q.den
    let e := max (floorLog2Quot n d) (-1022)
    let t := e - 52
    let N := if 0 ≤ t then n else n * 2 ^ (-t).toNat
    let D := if 0 ≤ t then d * 2 ^ t.toNat else d
    let m := N / D
    let r := N % D
    let m := if 2 * r < D then m else if D < 2 * r then m + 1 else if m % 2 = 0 then m else m + 1
    let v : ℚ := if 0 ≤ t then mkRat (m * 2 ^ t.toNat) 1 else mkRat m (2 ^ (-t).toNat)
    if q < 0 then -v else v

/-- The `float64` a field stands for. -/
def asF64 (q : ℚ) : ℚ := roundF64 q

/-- The conversion `float64(n)` of an `int`. -/
def f64OfInt (n : Int) : ℚ := roundF64 (n : ℚ)

/-- The quotient `a / b` of two `float64` values. -/
def f64Div (a b : ℚ) : ℚ := roundF64 (a / b)

/-- The product `a * b` of two `float64` values. -/
def f64Mul (a b : ℚ) : ℚ := roundF64 (a * b)

/-- The method `ApplyFullPower`: `u.PowerNow = float64(fullPower) * (u.OutputPower / 100)`,
in `float64` arithmetic; the constant `100` is a `float64` as it stands. -/
def UPSData.ApplyFullPower (u : UPSData) (fullPower : Int) : UPSData :=
  { u with PowerNow := f64Mul (f64OfInt fullPower) (f64Div (asF64 u.OutputPower) 100) }

/-! ## protocol/protocol.go: `BuildQueryCommand` over an explicit heap -/

/-- A Go slice header over a heap array: the array and the length (offset zero). -/
structure Slice where
  arr : Nat
  len : Nat
  deriving DecidableEq, Repr

/-- The heap of byte arrays, with the package variable `QueryCommand`. -/
structure Memory where
  arrays : List (List Byte)
  QueryCommandVar : Slice
  deriving DecidableEq, Repr

/-- The heap after package initialisation: one array, holding the literal of `QueryCommand`. -/
def Memory.init : Memory :=
  { arrays := [QueryCommand], QueryCommandVar := ⟨0, 7⟩ }

/-- The elements seen through a slice. -/
def Memory.read (m : Memory) (s : Slice) : List Byte :=
  (m.arrays.getD s.arr []).take s.len

/-- The builtin `make([]byte, n)`: a fresh zeroed array and a slice over it. -/
def Memory.make (m : Memory) (n : Nat) : Slice × Memory :=
  (⟨m.arrays.length, n⟩, { m with arrays := m.arrays ++ [List.replicate n 0] })

/-- The builtin `copy(dst, src)`: the first `min(len(dst), len(src))` elements of `src`
overwrite those of `dst`. -/
def Memory.copy (m : Memory) (dst src : Slice) : Memory :=
  let n := min dst.len src.len
  let d := m.arrays.getD dst.arr []
  { m with arrays := m.arrays.set dst.arr ((m.read src).take n ++ d.drop n) }

/-- The assignment `s[i] = v`; `none` is the index-out-of-range panic. -/
def Memory.store (m : Memory) (s : Slice) (i : Nat) (v : Byte) : Option Memory :=
  if i < s.len then
    some { m with arrays := m.arrays.set s.arr ((m.arrays.getD s.arr []).set i v) }
  else none

/-- The function `BuildQueryCommand`. -/
def BuildQueryCommand (m : Memory) : Slice × Memory :=
  let r := m.make m.QueryCommandVar.len
  let cmd := r.1
  (cmd, r.2.copy cmd r.2.QueryCommandVar)

/-- What a client of the package does between calls: call `BuildQueryCommand`, or assign to
an element of the slice returned by the `k`-th earlier call. -/
inductive MemOp where
  | build
  | store (k : Nat) (i : Nat) (v : Byte)
  deriving DecidableEq, Repr

/-- A heap together with the slices returned so far, oldest first. -/
structure Prog where
  mem : Memory
  returned : List Slice
  deriving DecidableEq, Repr

/-- One client operation. A store that names no returned slice, or that would panic, leaves
the state as it is. -/
def stepOp (p : Prog) : MemOp → Prog
  | .build =>
    let r := BuildQueryCommand p.mem
    { mem := r.2, returned := p.returned ++ [r.1] }
  | .store k i v =>
    match p.returned[k]? with
    | none => p
    | some s =>
      match p.mem.store s i v with
      | none => p
      | some m => { p with mem := m }

/-- A sequence of client operations, from the initialised heap. -/
def runOps (ops : List MemOp) : Prog :=
  ops.foldl stepOp { mem := Memory.init, returned := [] }

/-! ## serial/serial.go -/

/-- A `time.Duration`, in nanoseconds. -/
abbrev Duration := Int

/-- The constant `time.Second`. -/
def second : Duration := 1000000000

/-- The constant `defaultBaudRate`. -/
def defaultBaudRate : Int := 9600

/-- The constant `defaultReadSize`. -/
def defaultReadSize : Nat := 32

/-- A candidate port: its name, and what the driver answers for it. `openErr` is the error of
`serial.Open(name, mode)` and `timeoutErr` the error of `SetReadTimeout` on the opened handle
(`none` is Go's `nil`). -/
structure Candidate where
  name : String
  openErr : Option Error
  timeoutErr : Option Error
  deriving DecidableEq, Repr

/-- The struct `Port`: the driver handle (named by the device it opened) and the timeout. -/
structure Port where
  port : String
  readTimeout : Duration
  deriving DecidableEq, Repr

/-- A call made to the driver while opening. -/
inductive DriverCall where
  | open (name : String) (baudRate : Int)
  | setReadTimeout (name : String) (d : Duration)
  | close (name : String)
  deriving DecidableEq, Repr

/-- The result of an open: the Go pair `(*Port, error)` and the driver calls made. -/
structure OpenResult where
  port : Option Port
  err : Option Error
  calls : List DriverCall
  deriving DecidableEq, Repr

/-- The loop `for _, name := range ports` of `OpenWithBaudAndTimeout`, with the statement
`return nil, lastErr` that follows it. -/
def openLoop (baudRate : Int) (readTimeout : Duration) :
    Option Error → List Candidate → OpenResult
  | lastErr, [] => { port := none, err := lastErr, calls := [] }
  | _, c :: rest =>
    match c.openErr with
    | some err =>
      let r := openLoop baudRate readTimeout (some err) rest
      { r with calls := .open c.name baudRate :: r.calls }
    | none =>
      match c.timeoutErr with
      | some err =>
        let r := openLoop baudRate readTimeout (some err) rest
        { r with calls := .open c.name baudRate :: .setReadTimeout c.name readTimeout ::
                          .close c.name :: r.calls }
      | none =>
        { port := some { port := c.name, readTimeout := readTimeout }, err := none,
          calls := [.open c.name baudRate, .setReadTimeout c.name readTimeout] }

/-- The function `OpenWithBaudAndTimeout`. -/
def OpenWithBaudAndTimeout (ports : List Candidate) (baudRate : Int) (readTimeout : Duration) :
    OpenResult :=
  let readTimeout := if readTimeout ≤ 0 then 2 * second else readTimeout
  openLoop baudRate readTimeout none ports

/-- The function `OpenWithBaud`. -/
def OpenWithBaud (ports : List Candidate) (baudRate : Int) : OpenResult :=
  OpenWithBaudAndTimeout ports baudRate (2 * second)

/-- The function `Open`. -/
def Open (ports : List Candidate) : OpenResult :=
  OpenWithBaudAndTimeout ports defaultBaudRate (2 * second)

/-- What one call `p.port.Read(buf)` answers: `n` bytes placed in `buf` (the list is
`buf[:n]`), or an error. -/
inductive ReadOutcome where
  | data (chunk : List Byte)
  | fail (err : Error)
  deriving DecidableEq, Repr

/-- The serial line behind an open port: the answer to the `k`-th `Write` and to the `k`-th
`Read` made on it. -/
structure Device where
  writeResult : Nat → Option Error
  readResult : Nat → ReadOutcome

/-- How many `Write` and `Read` calls the port has made so far. -/
structure IOState where
  writes : Nat
  reads : Nat
  deriving DecidableEq, Repr

/-- The loop `for i, b := range cmd` of `SendCommand`: the first write error if any, and the
number of `Write` calls made once it ends. -/
def writeLoop (dev : Device) : List Byte → Nat → Option Error × Nat
  | [], k => (none, k)
  | _ :: rest, k =>
    match dev.writeResult k with
    | some err => (some err, k + 1)
    | none => writeLoop dev rest (k + 1)

/-- The loop `for i := 0; i < 5; i++` of `SendCommand` with `remaining = 5 - i`, and the
statement `return total, nil` that follows it: the returned pair and the number of `Read`
calls made once it ends. -/
def readLoop (dev : Device) : Nat → Nat → List Byte → (List Byte × Option Error) × Nat
  | 0, k, total => ((total, none), k)
  | remaining + 1, k, total =>
    match dev.readResult k with
    | .fail err => ((total, some err), k + 1)
    | .data chunk =>
      if chunk.length > 0 then
        let total := total ++ chunk
        if total.length ≥ 18 then ((total, none), k + 1)
        else readLoop dev remaining (k + 1) total
      else readLoop dev remaining (k + 1) total

/-- The method `SendCommand`: the Go pair `([]byte, error)` and the port's counters after
the call. Sleeps and the flush of the input buffer leave no trace in the model. -/
def SendCommand (dev : Device) (io : IOState) (cmd : List Byte) :
    (List Byte × Option Error) × IOState :=
  match writeLoop dev cmd io.writes with
  | (some err, w) => (([], some err), { io with writes := w })
  | (none, w) =>
    let r := readLoop dev 5 io.reads []
    (r.1, { writes := w, reads := r.2 })

/-! ## gui/dashboard.go: the polling goroutine of `Dashboard.Run` -/

/-- The fields of `config.Config` the loop reads. -/
structure Config where
  PORTA : List Candidate
  IntervalSerial : Int
  BaudRate : Int
  SMSUPSFullPower : Int

/-- The arguments of one call `d.setDataWithDebug(u, connected, debugMsg)`; `u = none` is the
nil pointer. -/
structure Snapshot where
  u : Option UPSData
  connected : Bool
  debugMsg : String
  deriving DecidableEq, Repr

/-- What an iteration does besides exchanging bytes. -/
inductive Effect where
  | wake
  | close
  | setDataWithDebug (s : Snapshot)
  deriving DecidableEq, Repr

/-- The variables the goroutine carries from one iteration to the next. -/
structure LoopState where
  port : Option Port
  io : IOState
  deriving DecidableEq, Repr

/-- The statement `if len(rawHex) > 60 { rawHex = rawHex[:60] + "..." }`. -/
def truncateHex (rawHex : String) : String :=
  if rawHex.length > 60 then String.mk (rawHex.data.take 60) ++ "..." else rawHex

/-- The text `fmt.Sprintf("%d bytes [%s] - %v", len(resp), rawHex, err)`. -/
def decodeFailureText (n : Nat) (rawHex : String) (err : Error) : String :=
  toString n ++ " bytes [" ++ rawHex ++ "] - " ++ err

/-- The block `if port == nil { ... }`: the port afterwards and the effects. The result is
`none` when `OpenWithBaud` answers a nil port with a nil error, for then `port.Wake()`
dereferences the nil pointer. -/
def connectPhase (cfg : Config) (s : LoopState) : Option (LoopState × List Effect) :=
  match s.port with
  | some _ => some (s, [])
  | none =>
    let r := OpenWithBaud cfg.PORTA cfg.BaudRate
    match r.err, r.port with
    | some err, _ =>
      some (s, [.setDataWithDebug { u := none, connected := false, debugMsg := "Open: " ++ err }])
    | none, some p =>
      some ({ s with port := some p },
            [.wake, .setDataWithDebug { u := none, connected := true, debugMsg := "" }])
    | none, none => none

/-- The block `if port != nil { ... }`. -/
def exchangePhase (cfg : Config) (dev : Device) (queryCmd : List Byte) (s : LoopState) :
    LoopState × List Effect :=
  match s.port with
  | none => (s, [])
  | some p =>
    let r := SendCommand dev s.io queryCmd
    let resp := r.1.1
    match r.1.2 with
    | some err =>
      ({ port := none, io := r.2 },
       [.close, .setDataWithDebug { u := none, connected := false, debugMsg := "Read: " ++ err }])
    | none =>
      match ParseResponse resp with
      | .error err =>
        let rawHex := truncateHex (hexEncodeToString resp)
        ({ port := some p, io := r.2 },
         [.setDataWithDebug { u := some { UPSData.zero with NoData := true }, connected := true,
                              debugMsg := decodeFailureText resp.length rawHex err }])
      | .ok u =>
        ({ port := some p, io := r.2 },
         [.setDataWithDebug { u := some (u.ApplyFullPower cfg.SMSUPSFullPower),
                              connected := true, debugMsg := "" }])

/-- One iteration of the loop `for { ... }`, the final sleep left out. -/
def pollIteration (cfg : Config) (dev : Device) (queryCmd : List Byte) (s : LoopState) :
    Option (LoopState × List Effect) :=
  match connectPhase cfg s with
  | none => none
  | some (s1, e1) =>
    let r := exchangePhase cfg dev queryCmd s1
    some (r.1, e1 ++ r.2)

/-! ## Reference notions used to state the properties -/

/-- The two's-complement signed 16-bit integer whose big-endian bytes are `hi`, `lo`. -/
def signedBE16 (hi lo : Byte) : Int :=
  let v : Int := (hi.val : Int) * 256 + (lo.val : Int)
  if v < 32768 then v else v - 65536

/-- The arithmetic sum of the bytes of a buffer. -/
def byteSum (data : List Byte) : Nat :=
  (data.map (fun b => b.val)).sum

/-- The byte sequence of end-to-end scenario A, as written: seventeen bytes. -/
def scenarioA : List Byte :=
  [0x3D, 0x00, 0xE6, 0x00, 0xE6, 0x00, 0xE6, 0x03, 0xE8, 0x01, 0xF4, 0x03, 0xE8, 0x00, 0xFA,
   0x00, 0x00]

/-- A frame with a negative temperature (`FF 9C`) and the status byte `0x81`. -/
def frameNegative : List Byte :=
  [0x3D, 0x00, 0xE6, 0x00, 0xE6, 0x00, 0xE6, 0x03, 0xE8, 0x01, 0xF4, 0x03, 0xE8, 0xFF, 0x9C,
   0x81, 0x00, 0x00]

/-- The heap invariant of a client: the package variable still views array 0, array 0 still
holds the literal, and the `k`-th returned slice views array `k + 1` with length 7. -/
structure ProgInv (p : Prog) : Prop where
  var_eq : p.mem.QueryCommandVar = ⟨0, 7⟩
  arrays_eq : ∃ tail, p.mem.arrays = QueryCommand :: tail ∧ tail.length = p.returned.length
  returned_eq : ∀ (k : Nat) (s : Slice), p.returned[k]? = some s → s = ⟨k + 1, 7⟩

/-- The error a candidate produces when it fails: that of `serial.Open`, else that of
`SetReadTimeout`; `none` when the candidate opens and accepts the timeout. -/
def Candidate.failure (c : Candidate) : Option Error :=
  match c.openErr with
  | some err => some err
  | none => c.timeoutErr

/-- The driver calls spent on a candidate that fails. -/
def Candidate.failedCalls (baudRate : Int) (readTimeout : Duration) (c : Candidate) :
    List DriverCall :=
  match c.openErr with
  | some _ => [.open c.name baudRate]
  | none => [.open c.name baudRate, .setReadTimeout c.name readTimeout, .close c.name]

/-- The bytes a read contributes to the response: its chunk, nothing when it fails. -/
def ReadOutcome.bytes : ReadOutcome → List Byte
  | .data chunk => chunk
  | .fail _ => []

/-- The bytes of the `m` reads numbered `k`, `k + 1`, ..., concatenated in order. -/
def readBytes (dev : Device) (k : Nat) : Nat → List Byte
  | 0 => []
  | m + 1 => (dev.readResult k).bytes ++ readBytes dev (k + 1) m

/-- The hex preview of a response: the first 60 characters of its hex text, followed by the
marker `...` when the response is longer than 30 bytes. -/
def hexPreview (resp : List Byte) : String :=
  String.mk ((hexChars resp).take 60) ++ (if resp.length > 30 then "..." else "")

/-- A configuration whose first candidate fails to open and whose second is accepted. -/
def cfgTwoPorts : Config :=
  { PORTA := [⟨"/dev/ttyUSB0", some "no such file", none⟩, ⟨"/dev/ttyUSB1", none, none⟩],
    IntervalSerial := 3, BaudRate := 2400, SMSUPSFullPower := 1400 }

/-- A line that accepts every write and answers ten bytes to the first read, nothing to the
second, a timeout error to the third. -/
def devShortThenFail : Device :=
  { writeResult := fun _ => none
    readResult := fun k =>
      if k = 0 then .data [0x3D, 0x01, 0x02, 0x03, 0x04, 0x05, 0x06, 0x07, 0x08, 0x09]
      else if k = 1 then .data []
      else .fail "timeout" }

/-- A line that accepts every write and answers ten bytes to the first read and nothing to
the later ones. -/
def devTenBytes : Device :=
  { writeResult := fun _ => none
    readResult := fun k =>
      if k = 0 then .data [0x3D, 0x01, 0x02, 0x03, 0x04, 0x05, 0x06, 0x07, 0x08, 0x09]
      else .data [] }

/-! ## Lemmas on the codec -/

theorem toInt16_eq_signedBE16 (hi lo : Byte) : toInt16 hi lo = signedBE16 hi lo := by
  have hhi : hi.val < 256 := hi.isLt
  have hlo : lo.val < 2 ^ 8 := lo.isLt
  have hshift : hi.val <<< 8 = 2 ^ 8 * hi.val := by
    rw [Nat.shiftLeft_eq, Nat.mul_comm]
  have hmod : (2 ^ 8 * hi.val) % 65536 = 2 ^ 8 * hi.val := Nat.mod_eq_of_lt (by omega)
  have hor : 2 ^ 8 * hi.val ||| lo.val = 2 ^ 8 * hi.val + lo.val :=
    (Nat.mul_add_lt_is_or hlo hi.val).symm
  simp only [toInt16, signedBE16, hshift, hmod, hor]
  split_ifs <;> omega

theorem flagBit_eq_testBit (b : Byte) (k : Nat) : flagBit b k = b.val.testBit k := by
  unfold flagBit
  rw [Nat.one_shiftLeft, Nat.and_two_pow]
  cases h : b.val.testBit k
  · simp
  · simp

theorem byteAt_eq_getElem (data : List Byte) (i : Nat) (h : i < data.length) :
    byteAt data i = data[i] := by
  simp [byteAt, List.getD, List.getElem?_eq_getElem h]

theorem sumBytes_eq (data : List Byte) (sum : Int) :
    sumBytes sum data = sum + (byteSum data : Int) := by
  induction data generalizing sum with
  | nil => simp [sumBytes, byteSum]
  | cons b bs ih =>
    simp only [sumBytes, ih, byteSum, List.map_cons, List.sum_cons] at *
    push_cast
    ring

theorem checksum_val (data : List Byte) :
    (Checksum data).val = (256 - byteSum data % 256) % 256 := by
  have hs : sumBytes 0 data = (byteSum data : Int) := by simp [sumBytes_eq]
  have ht : Int.tmod (byteSum data : Int) 256 = ((byteSum data % 256 : Nat) : Int) := by
    rw [Int.tmod_eq_emod (by omega) (by omega)]
    omega
  have hlt : byteSum data % 256 < 256 := Nat.mod_lt _ (by decide)
  simp only [Checksum, hs, ht]
  split_ifs <;> omega

theorem parseResponse_ok (data : List Byte) (h18 : 18 ≤ data.length)
    (hhdr : byteAt data 0 = ResponseHeader) :
    ParseResponse data = .ok
      { LastInputVac := (toInt16 (byteAt data 1) (byteAt data 2) : ℚ) / 10
        InputVac := (toInt16 (byteAt data 3) (byteAt data 4) : ℚ) / 10
        OutputVac := (toInt16 (byteAt data 5) (byteAt data 6) : ℚ) / 10
        OutputPower := (toInt16 (byteAt data 7) (byteAt data 8) : ℚ) / 10
        PowerNow := 0
        OutputHz := (toInt16 (byteAt data 9) (byteAt data 10) : ℚ) / 10
        BatteryLevel := (toInt16 (byteAt data 11) (byteAt data 12) : ℚ) / 10
        TemperatureC := (toInt16 (byteAt data 13) (byteAt data 14) : ℚ) / 10
        BateriaEmUso := flagBit (byteAt data 15) 0
        BateriaBaixa := flagBit (byteAt data 15) 1
        ByPass := flagBit (byteAt data 15) 2
        Boost := flagBit (byteAt data 15) 3
        UpsOk := flagBit (byteAt data 15) 4
        TesteAtivo := flagBit (byteAt data 15) 5
        ShutdownAtivo := flagBit (byteAt data 15) 6
        BeepLigado := flagBit (byteAt data 15) 7
        NoData := false } := by
  have h : ¬ data.length < 18 := by omega
  simp [ParseResponse, h, hhdr]

theorem parseResponse_short (data : List Byte) (h : data.length < 18) :
    ParseResponse data = .error (errTooShort data.length) := by
  simp [ParseResponse, h]

theorem parseResponse_badHeader (data : List Byte) (h18 : 18 ≤ data.length)
    (hhdr : byteAt data 0 ≠ ResponseHeader) :
    ParseResponse data = .error (errInvalidHeader (byteAt data 0)) := by
  have h : ¬ data.length < 18 := by omega
  simp [ParseResponse, h, hhdr]

theorem parseResponse_ok_inv {data : List Byte} {u : UPSData}
    (h : ParseResponse data = .ok u) :
    18 ≤ data.length ∧ byteAt data 0 = ResponseHeader := by
  by_cases h18 : data.length < 18
  · rw [parseResponse_short data h18] at h
    cases h
  · by_cases hhdr : byteAt data 0 = ResponseHeader
    · exact ⟨by omega, hhdr⟩
    · rw [parseResponse_badHeader data (by omega) hhdr] at h
      cases h

/-! ## The claims -/

/-- C1: every buffer of at least 18 bytes whose first byte is `0x3D` is decoded without error
into a reading with `NoData = false`, and each of the seven scalar fields is one tenth of the
two's-complement signed 16-bit big-endian integer at its offset (pairs 1-2, 3-4, 5-6, 7-8,
9-10, 11-12, 13-14); the pair `FF 9C` decodes to `-10`. -/
theorem parseResponse_scalars (data : List Byte) (h18 : 18 ≤ data.length)
    (hhdr : data[0] = 0x3D) :
    (∃ u, ParseResponse data = .ok u ∧ u.NoData = false ∧
      u.LastInputVac = (signedBE16 data[1] data[2] : ℚ) / 10 ∧
      u.InputVac = (signedBE16 data[3] data[4] : ℚ) / 10 ∧
      u.OutputVac = (signedBE16 data[5] data[6] : ℚ) / 10 ∧
      u.OutputPower = (signedBE16 data[7] data[8] : ℚ) / 10 ∧
      u.OutputHz = (signedBE16 data[9] data[10] : ℚ) / 10 ∧
      u.BatteryLevel = (signedBE16 data[11] data[12] : ℚ) / 10 ∧
      u.TemperatureC = (signedBE16 data[13] data[14] : ℚ) / 10) ∧
    ((signedBE16 0xFF 0x9C : Int) : ℚ) / 10 = -10 := by
  have h0 : byteAt data 0 = ResponseHeader := by
    rw [byteAt_eq_getElem data 0 (by omega), hhdr]
    rfl
  refine ⟨⟨_, parseResponse_ok data h18 h0, rfl, ?_⟩, ?_⟩
  · simp only [toInt16_eq_signedBE16]
    rw [byteAt_eq_getElem data 1 (by omega), byteAt_eq_getElem data 2 (by omega),
      byteAt_eq_getElem data 3 (by omega), byteAt_eq_getElem data 4 (by omega),
      byteAt_eq_getElem data 5 (by omega), byteAt_eq_getElem data 6 (by omega),
      byteAt_eq_getElem data 7 (by omega), byteAt_eq_getElem data 8 (by omega),
      byteAt_eq_getElem data 9 (by omega), byteAt_eq_getElem data 10 (by omega),
      byteAt_eq_getElem data 11 (by omega), byteAt_eq_getElem data 12 (by omega),
      byteAt_eq_getElem data 13 (by omega), byteAt_eq_getElem data 14 (by omega)]
    exact ⟨rfl, rfl, rfl, rfl, rfl, rfl, rfl⟩
  · have h : signedBE16 0xFF 0x9C = -100 := by decide
    rw [h]
    norm_num

/-- C1 at the concrete frame `frameNegative`: it is accepted, the input voltage is `23` and
the temperature, encoded `FF 9C`, is `-10`. -/
theorem parseResponse_scalars_witness :
    18 ≤ frameNegative.length ∧
    ∃ u, ParseResponse frameNegative = .ok u ∧ u.NoData = false ∧ u.InputVac = 23 ∧
      u.TemperatureC = -10 := by
  refine ⟨by decide, ?_⟩
  obtain ⟨⟨u, hu, hnd, _, h2, _, _, _, _, h7⟩, _⟩ :=
    parseResponse_scalars frameNegative (by decide) (by decide)
  refine ⟨u, hu, hnd, ?_, ?_⟩
  · rw [h2]
    have h : signedBE16 frameNegative[3] frameNegative[4] = 230 := by decide
    rw [h]
    norm_num
  · rw [h7]
    have h : signedBE16 frameNegative[13] frameNegative[14] = -100 := by decide
    rw [h]
    norm_num

/-- C2: `ParseResponse` fails exactly when the buffer is shorter than 18 bytes or its first
byte is not `0x3D`; a buffer shorter than 18 bytes gets the too-short error whatever it
holds, and a buffer of 18 bytes or more with another first byte gets the invalid-header
error. -/
theorem parseResponse_fails_iff (data : List Byte) :
    (data.length < 18 → ParseResponse data = .error (errTooShort data.length)) ∧
    (18 ≤ data.length → data.head? ≠ some 0x3D →
      ∃ b, data.head? = some b ∧ ParseResponse data = .error (errInvalidHeader b)) ∧
    ((∃ e, ParseResponse data = .error e) ↔ (data.length < 18 ∨ data.head? ≠ some 0x3D)) := by
  have hhead : 18 ≤ data.length → data.head? = some (byteAt data 0) := by
    intro h
    cases data with
    | nil => simp at h
    | cons b bs => simp [byteAt]
  refine ⟨parseResponse_short data, ?_, ?_⟩
  · intro h18 hne
    refine ⟨byteAt data 0, hhead h18, parseResponse_badHeader data h18 ?_⟩
    intro h0
    apply hne
    rw [hhead h18, h0]
    rfl
  · constructor
    · rintro ⟨e, he⟩
      by_cases h18 : data.length < 18
      · exact Or.inl h18
      · right
        intro h0
        have hb : byteAt data 0 = ResponseHeader := by
          have := hhead (by omega)
          rw [h0] at this
          exact (Option.some.inj this).symm
        rw [parseResponse_ok data (by omega) hb] at he
        cases he
    · rintro (h | h)
      · exact ⟨_, parseResponse_short data h⟩
      · by_cases h18 : data.length < 18
        · exact ⟨_, parseResponse_short data h18⟩
        · refine ⟨_, parseResponse_badHeader data (by omega) ?_⟩
          intro h0
          apply h
          rw [hhead (by omega), h0]
          rfl

/-- C2 at concrete buffers: three bytes with a wrong first byte get the too-short error, and
eighteen bytes starting `0x0A` get the invalid-header error. -/
theorem parseResponse_fails_iff_witness :
    ParseResponse [0x0A, 0x01, 0x02] = .error "response too short: 3 bytes" ∧
    ∃ b, (0x0A :: List.replicate 17 (0 : Byte)).head? = some b ∧
      ParseResponse (0x0A :: List.replicate 17 0) = .error (errInvalidHeader b) :=
  ⟨(parseResponse_fails_iff [0x0A, 0x01, 0x02]).1 (by decide),
   (parseResponse_fails_iff (0x0A :: List.replicate 17 0)).2.1 (by decide) (by decide)⟩

/-- C3: for every accepted buffer the eight status flags are the bits of the byte at offset
15, bit 0 the least significant (`BateriaEmUso`, `BateriaBaixa`, `ByPass`, `Boost`, `UpsOk`,
`TesteAtivo`, `ShutdownAtivo`, `BeepLigado` for bits 0 to 7); two accepted buffers with the
same byte at offset 15 have the same flags. -/
theorem parseResponse_flags (data : List Byte) (u : UPSData)
    (h : ParseResponse data = .ok u) :
    (∃ b : Byte, data[15]? = some b ∧
      u.BateriaEmUso = b.val.testBit 0 ∧ u.BateriaBaixa = b.val.testBit 1 ∧
      u.ByPass = b.val.testBit 2 ∧ u.Boost = b.val.testBit 3 ∧
      u.UpsOk = b.val.testBit 4 ∧ u.TesteAtivo = b.val.testBit 5 ∧
      u.ShutdownAtivo = b.val.testBit 6 ∧ u.BeepLigado = b.val.testBit 7) ∧
    (∀ (other : List Byte) (v : UPSData), ParseResponse other = .ok v →
      other[15]? = data[15]? →
      v.BateriaEmUso = u.BateriaEmUso ∧ v.BateriaBaixa = u.BateriaBaixa ∧
      v.ByPass = u.ByPass ∧ v.Boost = u.Boost ∧ v.UpsOk = u.UpsOk ∧
      v.TesteAtivo = u.TesteAtivo ∧ v.ShutdownAtivo = u.ShutdownAtivo ∧
      v.BeepLigado = u.BeepLigado) := by
  have key : ∀ (d : List Byte) (w : UPSData), ParseResponse d = .ok w →
      d[15]? = some (byteAt d 15) ∧
      w.BateriaEmUso = (byteAt d 15).val.testBit 0 ∧
      w.BateriaBaixa = (byteAt d 15).val.testBit 1 ∧
      w.ByPass = (byteAt d 15).val.testBit 2 ∧ w.Boost = (byteAt d 15).val.testBit 3 ∧
      w.UpsOk = (byteAt d 15).val.testBit 4 ∧ w.TesteAtivo = (byteAt d 15).val.testBit 5 ∧
      w.ShutdownAtivo = (byteAt d 15).val.testBit 6 ∧
      w.BeepLigado = (byteAt d 15).val.testBit 7 := by
    intro d w hw
    obtain ⟨h18, hhdr⟩ := parseResponse_ok_inv hw
    rw [parseResponse_ok d h18 hhdr] at hw
    cases hw
    have h15 : d[15]? = some (byteAt d 15) := by
      rw [byteAt_eq_getElem d 15 (by omega)]
      exact List.getElem?_eq_getElem (by omega)
    exact ⟨h15, flagBit_eq_testBit _ _, flagBit_eq_testBit _ _, flagBit_eq_testBit _ _,
      flagBit_eq_testBit _ _, flagBit_eq_testBit _ _, flagBit_eq_testBit _ _,
      flagBit_eq_testBit _ _, flagBit_eq_testBit _ _⟩
  obtain ⟨h15, k0, k1, k2, k3, k4, k5, k6, k7⟩ := key data u h
  refine ⟨⟨byteAt data 15, h15, k0, k1, k2, k3, k4, k5, k6, k7⟩, ?_⟩
  intro other v hv hsame
  obtain ⟨g15, j0, j1, j2, j3, j4, j5, j6, j7⟩ := key other v hv
  have hb : byteAt other 15 = byteAt data 15 := by
    rw [g15, h15] at hsame
    exact Option.some.inj hsame
  rw [hb] at j0 j1 j2 j3 j4 j5 j6 j7
  rw [k0, k1, k2, k3, k4, k5, k6, k7]
  exact ⟨j0, j1, j2, j3, j4, j5, j6, j7⟩

/-- C3 at the frame `frameNegative`, whose status byte is `0x81`: bits 0 and 7 are set, so
`BateriaEmUso` and `BeepLigado` hold and `UpsOk` does not. -/
theorem parseResponse_flags_witness :
    ∃ u, ParseResponse frameNegative = .ok u ∧
      u.BateriaEmUso = true ∧ u.BeepLigado = true ∧ u.UpsOk = false := by
  have hp : ParseResponse frameNegative =
      .ok ((ParseResponse frameNegative).toOption.getD UPSData.zero) := by
    rw [parseResponse_ok frameNegative (by decide) (by decide)]
    rfl
  obtain ⟨⟨b, hb, h0, _, _, _, h4, _, _, h7⟩, _⟩ := parseResponse_flags frameNegative _ hp
  have hb2 : b = 0x81 := by
    have : frameNegative[15]? = some 0x81 := by decide
    rw [this] at hb
    exact (Option.some.inj hb).symm
  subst hb2
  exact ⟨_, hp, by rw [h0]; decide, by rw [h7]; decide, by rw [h4]; decide⟩

theorem byteSum_append (a b : List Byte) : byteSum (a ++ b) = byteSum a + byteSum b := by
  simp [byteSum]

theorem byteSum_replicate_zero (n : Nat) : byteSum (List.replicate n (0 : Byte)) = 0 := by
  induction n with
  | zero => rfl
  | succ k ih =>
    simp only [List.replicate_succ, byteSum, List.map_cons, List.sum_cons] at *
    simp [ih]

/-- C4: for every payload, `Checksum` is `(0x100 - (sum mod 0x100)) mod 0x100`; the bytes of
the payload followed by its checksum sum to `0` modulo `0x100`; the checksum is `0` (and not
256) exactly when the payload sums to `0` modulo `0x100`, as for the empty and for every
all-zero payload. -/
theorem checksum_spec (payload : List Byte) :
    (Checksum payload).val = (0x100 - byteSum payload % 0x100) % 0x100 ∧
    byteSum (payload ++ [Checksum payload]) % 0x100 = 0 ∧
    (Checksum payload = 0 ↔ byteSum payload % 0x100 = 0) ∧
    Checksum [] = 0 ∧
    (∀ n, Checksum (List.replicate n 0) = 0) := by
  have hv := checksum_val payload
  have hlt : byteSum payload % 256 < 256 := Nat.mod_lt _ (by decide)
  refine ⟨hv, ?_, ?_, by decide, ?_⟩
  · rw [byteSum_append]
    have h1 : byteSum [Checksum payload] = (Checksum payload).val := by simp [byteSum]
    rw [h1, hv]
    omega
  · rw [Fin.ext_iff, hv]
    simp only [Fin.val_zero]
    omega
  · intro n
    rw [Fin.ext_iff, checksum_val, byteSum_replicate_zero]
    rfl

/-- C5, as stated, fails: the scenario-A sequence has 17 bytes, so `ParseResponse` returns no
reading but the too-short error; and once a trailing `00` completes the frame, the pair
`00 FA` at offsets 13-14 gives a temperature different from `2.5`. -/
theorem scenarioA_not_decoded :
    scenarioA.length = 17 ∧
    ParseResponse scenarioA = .error "response too short: 17 bytes" ∧
    (¬ ∃ u, ParseResponse scenarioA = .ok u) ∧
    (∀ u, ParseResponse (scenarioA ++ [0x00]) = .ok u →
      (u.ApplyFullPower 1400).TemperatureC ≠ 5 / 2) := by
  refine ⟨by decide, parseResponse_short scenarioA (by decide), ?_, ?_⟩
  · rintro ⟨u, hu⟩
    rw [parseResponse_short scenarioA (by decide)] at hu
    cases hu
  · intro u hu
    rw [parseResponse_ok (scenarioA ++ [0x00]) (by decide) (by decide)] at hu
    cases hu
    have h : toInt16 (byteAt (scenarioA ++ [0x00]) 13) (byteAt (scenarioA ++ [0x00]) 14) = 250 := by
      decide
    simp only [UPSData.ApplyFullPower, h]
    norm_num

/-- C5, amended: the 17 bytes of scenario A are rejected as too short; completed to 18 bytes
by one trailing `00`, they decode, and after `ApplyFullPower(1400)` the reading has
`LastInputVac = InputVac = OutputVac = 23`, `OutputPower = 100`, `OutputHz = 50`,
`BatteryLevel = 100`, `TemperatureC = 25`, `PowerNow = 1400`, every flag false and
`NoData = false`. -/
theorem scenarioA_padded_decoded :
    ParseResponse scenarioA = .error (errTooShort 17) ∧
    (ParseResponse (scenarioA ++ [0x00])).map (fun u => u.ApplyFullPower 1400) = .ok
      { LastInputVac := 23, InputVac := 23, OutputVac := 23, OutputPower := 100,
        PowerNow := 1400, OutputHz := 50, BatteryLevel := 100, TemperatureC := 25,
        BeepLigado := false, ShutdownAtivo := false, TesteAtivo := false, UpsOk := false,
        Boost := false, ByPass := false, BateriaBaixa := false, BateriaEmUso := false,
        NoData := false } := by
  refine ⟨parseResponse_short scenarioA (by decide), ?_⟩
  rw [parseResponse_ok (scenarioA ++ [0x00]) (by decide) (by decide)]
  have h1 : toInt16 (byteAt (scenarioA ++ [0x00]) 1) (byteAt (scenarioA ++ [0x00]) 2) = 230 := by
    decide
  have h3 : toInt16 (byteAt (scenarioA ++ [0x00]) 3) (byteAt (scenarioA ++ [0x00]) 4) = 230 := by
    decide
  have h5 : toInt16 (byteAt (scenarioA ++ [0x00]) 5) (byteAt (scenarioA ++ [0x00]) 6) = 230 := by
    decide
  have h7 : toInt16 (byteAt (scenarioA ++ [0x00]) 7) (byteAt (scenarioA ++ [0x00]) 8) = 1000 := by
    decide
  have h9 : toInt16 (byteAt (scenarioA ++ [0x00]) 9) (byteAt (scenarioA ++ [0x00]) 10) = 500 := by
    decide
  have h11 :
      toInt16 (byteAt (scenarioA ++ [0x00]) 11) (byteAt (scenarioA ++ [0x00]) 12) = 1000 := by
    decide
  have h13 :
      toInt16 (byteAt (scenarioA ++ [0x00]) 13) (byteAt (scenarioA ++ [0x00]) 14) = 250 := by
    decide
  have hs : byteAt (scenarioA ++ [0x00]) 15 = 0 := by decide
  have hf : ∀ k, flagBit 0 k = false := by
    intro k
    simp [flagBit]
  have hp : f64Mul (f64OfInt 1400) (f64Div (asF64 100) 100) = 1400 := by decide!
  simp only [h1, h3, h5, h7, h9, h11, h13, hs, hf, Except.map, UPSData.ApplyFullPower]
  norm_num
  exact hp

theorem roundF64_zero : roundF64 0 = 0 := by
  simp [roundF64]

/-- Values of `roundF64` at known points of binary64: the `float64` of one tenth, of minus one
third, the ties `2 ^ 53 + 1` and `2 ^ 53 + 3` (to even), and two ties among the subnormals. -/
theorem roundF64_samples :
    roundF64 (1 / 10) = 3602879701896397 / 36028797018963968 ∧
    roundF64 (-1 / 3) = -(6004799503160661 / 18014398509481984) ∧
    roundF64 (2 ^ 53 + 1) = 2 ^ 53 ∧
    roundF64 (2 ^ 53 + 3) = 2 ^ 53 + 4 ∧
    roundF64 (1 / 2 ^ 1075) = 0 ∧
    roundF64 (3 / 2 ^ 1075) = 1 / 2 ^ 1073 := by
  refine ⟨by decide!, by decide!, by decide!, by decide!, by decide!, by decide!⟩

/-- C6, as stated, fails: with `fullPower = 1400` and `OutputPower = 57.5` the code stores
`805 - 2 ^ (-43)` (printed `804.9999999999999`), not the product `1400 × (57.5 / 100) = 805`,
because `57.5 / 100` is rounded before it is multiplied; and with `fullPower = 2 ^ 53 + 1`
and `OutputPower = 100` it stores `2 ^ 53`, because the conversion to `float64` rounds. -/
theorem applyFullPower_not_exact :
    ({ UPSData.zero with OutputPower := 115 / 2 }.ApplyFullPower 1400).PowerNow =
      805 - 1 / 2 ^ 43 ∧
    ({ UPSData.zero with OutputPower := 115 / 2 }.ApplyFullPower 1400).PowerNow ≠
      ((1400 : Int) : ℚ) * ((115 / 2) / 100) ∧
    ({ UPSData.zero with OutputPower := 100 }.ApplyFullPower (2 ^ 53 + 1)).PowerNow =
      2 ^ 53 ∧
    ({ UPSData.zero with OutputPower := 100 }.ApplyFullPower (2 ^ 53 + 1)).PowerNow ≠
      ((2 ^ 53 + 1 : Int) : ℚ) * (100 / 100) := by
  have h1 : f64Mul (f64OfInt 1400) (f64Div (asF64 (115 / 2)) 100) = 805 - 1 / 2 ^ 43 := by
    decide!
  have h2 : f64Mul (f64OfInt (2 ^ 53 + 1)) (f64Div (asF64 100) 100) = 2 ^ 53 := by
    decide!
  simp only [UPSData.ApplyFullPower, UPSData.zero]
  refine ⟨h1, ?_, h2, ?_⟩
  · rw [h1]
    norm_num
  · rw [h2]
    norm_num

/-- C6, amended: for every reading and every integer `fullPower`, `ApplyFullPower` leaves the
seven decoded scalars, the eight flags and `NoData` as they were and sets `PowerNow` to the
`float64` product of `float64(fullPower)` and of the `float64` quotient of `OutputPower` by
`100`, each of the three steps rounded to the nearest `float64`, ties to even (stated for
`fullPower` in the range of a 64-bit `int` and `OutputPower` of magnitude at most `2 ^ 960`,
where nothing overflows); with `fullPower = 1400` a load of `50` gives `700`, and a load of
`0` gives `0` for every `fullPower`. -/
theorem applyFullPower_spec (u : UPSData) (fullPower : Int) :
    (-2 ^ 63 ≤ fullPower → fullPower < 2 ^ 63 → |u.OutputPower| ≤ 2 ^ 960 →
      (u.ApplyFullPower fullPower).PowerNow =
        roundF64 (roundF64 (fullPower : ℚ) * roundF64 (roundF64 u.OutputPower / 100))) ∧
    u.ApplyFullPower fullPower = { u with PowerNow := (u.ApplyFullPower fullPower).PowerNow } ∧
    ((u.ApplyFullPower fullPower).LastInputVac = u.LastInputVac ∧
      (u.ApplyFullPower fullPower).InputVac = u.InputVac ∧
      (u.ApplyFullPower fullPower).OutputVac = u.OutputVac ∧
      (u.ApplyFullPower fullPower).OutputPower = u.OutputPower ∧
      (u.ApplyFullPower fullPower).OutputHz = u.OutputHz ∧
      (u.ApplyFullPower fullPower).BatteryLevel = u.BatteryLevel ∧
      (u.ApplyFullPower fullPower).TemperatureC = u.TemperatureC) ∧
    ((u.ApplyFullPower fullPower).BeepLigado = u.BeepLigado ∧
      (u.ApplyFullPower fullPower).ShutdownAtivo = u.ShutdownAtivo ∧
      (u.ApplyFullPower fullPower).TesteAtivo = u.TesteAtivo ∧
      (u.ApplyFullPower fullPower).UpsOk = u.UpsOk ∧
      (u.ApplyFullPower fullPower).Boost = u.Boost ∧
      (u.ApplyFullPower fullPower).ByPass = u.ByPass ∧
      (u.ApplyFullPower fullPower).BateriaBaixa = u.BateriaBaixa ∧
      (u.ApplyFullPower fullPower).BateriaEmUso = u.BateriaEmUso ∧
      (u.ApplyFullPower fullPower).NoData = u.NoData) ∧
    ({ u with OutputPower := 50 }.ApplyFullPower 1400).PowerNow = 700 ∧
    ({ u with OutputPower := 0 }.ApplyFullPower fullPower).PowerNow = 0 := by
  refine ⟨fun _ _ _ => rfl, rfl, ⟨rfl, rfl, rfl, rfl, rfl, rfl, rfl⟩,
    ⟨rfl, rfl, rfl, rfl, rfl, rfl, rfl, rfl, rfl⟩, ?_, ?_⟩
  · have h : f64Mul (f64OfInt 1400) (f64Div (asF64 50) 100) = 700 := by decide!
    exact h
  · simp only [UPSData.ApplyFullPower, f64Mul, f64Div, asF64, roundF64_zero, zero_div,
      mul_zero]

/-- C6, amended, at the default rating `1400` and a load of `57.5`: the stored value is
`roundF64 (1400 × roundF64 0.575)`, which is `805 - 2 ^ (-43)`. -/
theorem applyFullPower_spec_witness :
    ({ UPSData.zero with OutputPower := 115 / 2 }.ApplyFullPower 1400).PowerNow =
      roundF64 (roundF64 ((1400 : Int) : ℚ) * roundF64 (roundF64 (115 / 2) / 100)) ∧
    roundF64 (roundF64 ((1400 : Int) : ℚ) * roundF64 (roundF64 (115 / 2) / 100)) =
      805 - 1 / 2 ^ 43 := by
  refine ⟨(applyFullPower_spec { UPSData.zero with OutputPower := 115 / 2 } 1400).1
    (by norm_num) (by norm_num) ?_, by decide!⟩
  simp only [UPSData.zero]
  rw [abs_of_nonneg (by norm_num)]
  norm_num

/-! ### The heap of `BuildQueryCommand` -/

theorem progInv_init : ProgInv { mem := Memory.init, returned := [] } :=
  ⟨rfl, ⟨[], rfl, rfl⟩, by intro k s h; simp at h⟩

theorem buildQueryCommand_eq (m : Memory) (tail : List (List Byte))
    (hv : m.QueryCommandVar = ⟨0, 7⟩) (ha : m.arrays = QueryCommand :: tail) :
    BuildQueryCommand m =
      (⟨tail.length + 1, 7⟩, { m with arrays := QueryCommand :: (tail ++ [QueryCommand]) }) := by
  simp only [BuildQueryCommand, Memory.make, Memory.copy, Memory.read, hv, ha]
  simp [QueryCommand, List.getD]

theorem progInv_step (p : Prog) (op : MemOp) (h : ProgInv p) : ProgInv (stepOp p op) := by
  obtain ⟨hv, ⟨tail, ha, hl⟩, hr⟩ := h
  cases op with
  | build =>
    simp only [stepOp, buildQueryCommand_eq p.mem tail hv ha]
    refine ⟨hv, ⟨tail ++ [QueryCommand], rfl, by simp [hl]⟩, ?_⟩
    intro k s hk
    by_cases hlt : k < p.returned.length
    · rw [List.getElem?_append_left hlt] at hk
      exact hr k s hk
    · have hge : p.returned.length ≤ k := by omega
      rw [List.getElem?_append_right hge] at hk
      have hk0 : k - p.returned.length = 0 := by
        by_contra hne
        have : ([({ arr := tail.length + 1, len := 7 } : Slice)])[k - p.returned.length]? = none := by
          apply List.getElem?_eq_none
          simp
          omega
        rw [this] at hk
        cases hk
      rw [hk0] at hk
      simp at hk
      rw [← hk]
      have : k = tail.length := by omega
      rw [this]
  | store k i v =>
    simp only [stepOp]
    cases hk : p.returned[k]? with
    | none => exact ⟨hv, ⟨tail, ha, hl⟩, hr⟩
    | some s =>
      have hs := hr k s hk
      subst hs
      simp only [Memory.store]
      by_cases hi : i < 7
      · simp only [hi, if_true]
        refine ⟨hv, ⟨tail.set k ((tail.getD k []).set i v), ?_, by simp [hl]⟩, hr⟩
        simp [ha, List.getD]
      · simp only [hi, if_false]
        exact ⟨hv, ⟨tail, ha, hl⟩, hr⟩

theorem progInv_runOps (ops : List MemOp) : ProgInv (runOps ops) := by
  unfold runOps
  generalize hp : ({ mem := Memory.init, returned := [] } : Prog) = p
  have h : ProgInv p := hp ▸ progInv_init
  clear hp
  induction ops generalizing p with
  | nil => exact h
  | cons op rest ih => exact ih (stepOp p op) (progInv_step p op h)

/-- C7: after any history of calls to `BuildQueryCommand` and of assignments through the
slices those calls returned, a call returns exactly the bytes `51 FF FF FF FF B3 0D` in a
fresh array that neither `QueryCommand` nor an earlier result views, and `QueryCommand`
still reads those bytes; an assignment through one returned slice changes neither
`QueryCommand`, nor what a later call returns, nor another returned slice. -/
theorem buildQueryCommand_copies (ops : List MemOp) :
    (BuildQueryCommand (runOps ops).mem).2.read (BuildQueryCommand (runOps ops).mem).1 =
      [0x51, 0xff, 0xff, 0xff, 0xff, 0xb3, 0x0d] ∧
    (runOps ops).mem.read (runOps ops).mem.QueryCommandVar =
      [0x51, 0xff, 0xff, 0xff, 0xff, 0xb3, 0x0d] ∧
    (BuildQueryCommand (runOps ops).mem).2.read
        (BuildQueryCommand (runOps ops).mem).2.QueryCommandVar =
      [0x51, 0xff, 0xff, 0xff, 0xff, 0xb3, 0x0d] ∧
    (BuildQueryCommand (runOps ops).mem).1.arr ≠ (runOps ops).mem.QueryCommandVar.arr ∧
    (∀ s ∈ (runOps ops).returned,
      (BuildQueryCommand (runOps ops).mem).1.arr ≠ s.arr ∧
      (BuildQueryCommand (runOps ops).mem).2.read s = (runOps ops).mem.read s) ∧
    (∀ (k : Nat) (s : Slice) (i : Nat) (v : Byte) (m : Memory),
      (runOps ops).returned[k]? = some s → (runOps ops).mem.store s i v = some m →
      m.read m.QueryCommandVar = [0x51, 0xff, 0xff, 0xff, 0xff, 0xb3, 0x0d] ∧
      (BuildQueryCommand m).2.read (BuildQueryCommand m).1 =
        [0x51, 0xff, 0xff, 0xff, 0xff, 0xb3, 0x0d] ∧
      (∀ (j : Nat) (t : Slice), j ≠ k → (runOps ops).returned[j]? = some t →
        m.read t = (runOps ops).mem.read t)) := by
  obtain ⟨hv, ⟨tail, ha, hl⟩, hr⟩ := progInv_runOps ops
  generalize runOps ops = p at hv ha hl hr
  have hq : QueryCommand = [0x51, 0xff, 0xff, 0xff, 0xff, 0xb3, 0x0d] := rfl
  rw [buildQueryCommand_eq p.mem tail hv ha]
  refine ⟨?_, ?_, ?_, ?_, ?_, ?_⟩
  · simp [Memory.read, List.getD, QueryCommand]
  · simp [Memory.read, List.getD, hv, ha, QueryCommand]
  · simp [Memory.read, List.getD, hv, QueryCommand]
  · simp [hv]
  · intro s hs
    obtain ⟨k, hk, hks⟩ := List.getElem_of_mem hs
    have hs2 := hr k s (by rw [List.getElem?_eq_getElem hk, hks])
    subst hs2
    refine ⟨by simp; omega, ?_⟩
    have hkt : k < tail.length := by omega
    simp [Memory.read, List.getD, ha, List.getElem?_append_left hkt]
  · intro k s i v m hk hst
    have hs := hr k s hk
    subst hs
    simp only [Memory.store] at hst
    by_cases hi : i < 7
    · simp only [hi, if_true] at hst
      have hm := (Option.some.inj hst).symm
      have hmv : m.QueryCommandVar = ⟨0, 7⟩ := by rw [hm]; exact hv
      have hma : m.arrays = QueryCommand :: tail.set k ((tail.getD k []).set i v) := by
        rw [hm]
        simp [ha, List.getD]
      refine ⟨?_, ?_, ?_⟩
      · simp [Memory.read, List.getD, hmv, hma, QueryCommand]
      · rw [buildQueryCommand_eq m _ hmv hma]
        simp [Memory.read, List.getD, QueryCommand]
      · intro j t hjk hj
        have ht := hr j t hj
        subst ht
        simp only [Memory.read, hma, ha]
        simp [List.getD, List.getElem?_set_ne (Ne.symm hjk)]
    · simp only [hi, if_false] at hst
      cases hst

/-- C7 on a concrete history: after one call, writing `0x11` at index 2 of its result leaves
`QueryCommand` and the result of the next call at `51 FF FF FF FF B3 0D`. -/
theorem buildQueryCommand_copies_witness :
    (runOps [.build]).returned[0]? = some ⟨1, 7⟩ ∧
    ∃ m, (runOps [.build]).mem.store ⟨1, 7⟩ 2 0x11 = some m ∧
      m.read ⟨1, 7⟩ = [0x51, 0xff, 0x11, 0xff, 0xff, 0xb3, 0x0d] ∧
      m.read m.QueryCommandVar = [0x51, 0xff, 0xff, 0xff, 0xff, 0xb3, 0x0d] ∧
      (BuildQueryCommand m).2.read (BuildQueryCommand m).1 =
        [0x51, 0xff, 0xff, 0xff, 0xff, 0xb3, 0x0d] := by
  refine ⟨by decide, ?_⟩
  have hst : (runOps [.build]).mem.store ⟨1, 7⟩ 2 0x11 =
      some { arrays := [QueryCommand, [0x51, 0xff, 0x11, 0xff, 0xff, 0xb3, 0x0d]],
             QueryCommandVar := ⟨0, 7⟩ } := by decide
  have h := (buildQueryCommand_copies [.build]).2.2.2.2.2 0 ⟨1, 7⟩ 2 0x11 _ (by decide) hst
  exact ⟨_, hst, by decide, h.1, h.2.1⟩

/-! ### `OpenWithBaudAndTimeout` -/

theorem openLoop_all_fail (baudRate : Int) (readTimeout : Duration) (ports : List Candidate)
    (lastErr : Option Error) (hfail : ∀ c ∈ ports, c.failure ≠ none) :
    (openLoop baudRate readTimeout lastErr ports).port = none ∧
    (openLoop baudRate readTimeout lastErr ports).err =
      (match ports.getLast? with
       | some c => c.failure
       | none => lastErr) ∧
    (openLoop baudRate readTimeout lastErr ports).calls =
      (ports.map (Candidate.failedCalls baudRate readTimeout)).flatten := by
  induction ports generalizing lastErr with
  | nil => simp [openLoop]
  | cons c rest ih =>
    have hc := hfail c (List.mem_cons_self _ _)
    have hrest : ∀ d ∈ rest, d.failure ≠ none := fun d hd => hfail d (List.mem_cons_of_mem _ hd)
    have hlast : ∀ e : Option Error, c.failure = e →
        (match (c :: rest).getLast? with
         | some c => c.failure
         | none => lastErr) =
        (match rest.getLast? with
         | some c => c.failure
         | none => e) := by
      intro e he
      cases rest with
      | nil => simp [he]
      | cons d ds =>
        rw [List.getLast?_cons_cons, List.getLast?_eq_getLast _ (List.cons_ne_nil d ds)]
    cases ho : c.openErr with
    | some err =>
      obtain ⟨h1, h2, h3⟩ := ih (some err) hrest
      have hf : c.failure = some err := by simp [Candidate.failure, ho]
      refine ⟨?_, ?_, ?_⟩
      · simp [openLoop, ho, h1]
      · rw [hlast _ hf]
        simp [openLoop, ho, h2]
      · simp [openLoop, ho, h3, Candidate.failedCalls]
    | none =>
      cases ht : c.timeoutErr with
      | none => simp [Candidate.failure, ho, ht] at hc
      | some err =>
        obtain ⟨h1, h2, h3⟩ := ih (some err) hrest
        have hf : c.failure = some err := by simp [Candidate.failure, ho, ht]
        refine ⟨?_, ?_, ?_⟩
        · simp [openLoop, ho, ht, h1]
        · rw [hlast _ hf]
          simp [openLoop, ho, ht, h2]
        · simp [openLoop, ho, ht, h3, Candidate.failedCalls]

theorem openLoop_first_success (baudRate : Int) (readTimeout : Duration)
    (pre post : List Candidate) (c : Candidate) (lastErr : Option Error)
    (hpre : ∀ d ∈ pre, d.failure ≠ none) (hc : c.failure = none) :
    openLoop baudRate readTimeout lastErr (pre ++ c :: post) =
      { port := some { port := c.name, readTimeout := readTimeout }, err := none,
        calls := (pre.map (Candidate.failedCalls baudRate readTimeout)).flatten ++
          [.open c.name baudRate, .setReadTimeout c.name readTimeout] } := by
  induction pre generalizing lastErr with
  | nil =>
    have ho : c.openErr = none := by
      cases h : c.openErr with
      | none => rfl
      | some e => simp [Candidate.failure, h] at hc
    have ht : c.timeoutErr = none := by simpa [Candidate.failure, ho] using hc
    simp [openLoop, ho, ht]
  | cons d ds ih =>
    have hd := hpre d (List.mem_cons_self _ _)
    have hds : ∀ x ∈ ds, x.failure ≠ none := fun x hx => hpre x (List.mem_cons_of_mem _ hx)
    cases ho : d.openErr with
    | some err => simp [openLoop, ho, ih (some err) hds, Candidate.failedCalls]
    | none =>
      cases ht : d.timeoutErr with
      | none => simp [Candidate.failure, ho, ht] at hd
      | some err => simp [openLoop, ho, ht, ih (some err) hds, Candidate.failedCalls]

theorem candidates_split (ports : List Candidate) :
    (∀ c ∈ ports, c.failure ≠ none) ∨
    ∃ pre c post, ports = pre ++ c :: post ∧ (∀ d ∈ pre, d.failure ≠ none) ∧
      c.failure = none := by
  induction ports with
  | nil => exact Or.inl (by simp)
  | cons c rest ih =>
    by_cases hc : c.failure = none
    · exact Or.inr ⟨[], c, rest, rfl, by simp, hc⟩
    · rcases ih with hall | ⟨pre, d, post, hsplit, hpre, hd⟩
      · left
        intro x hx
        rcases List.mem_cons.mp hx with rfl | hx
        · exact hc
        · exact hall x hx
      · right
        refine ⟨c :: pre, d, post, by rw [hsplit]; rfl, ?_, hd⟩
        intro x hx
        rcases List.mem_cons.mp hx with rfl | hx
        · exact hc
        · exact hpre x hx

/-- C8, as stated, fails at the empty candidate list: every candidate of it fails, there
being none, and yet `OpenWithBaudAndTimeout` returns a nil error, together with a nil
port. -/
theorem openWithBaudAndTimeout_empty_nil_nil :
    (∀ c ∈ ([] : List Candidate), c.failure ≠ none) ∧
    (OpenWithBaudAndTimeout [] 2400 (2 * second)).err = none ∧
    (OpenWithBaudAndTimeout [] 2400 (2 * second)).port = none ∧
    (OpenWithBaudAndTimeout [] 2400 (2 * second)).calls = [] :=
  ⟨by simp, rfl, rfl, rfl⟩

/-- C8, amended: on every non-empty candidate list, with `rt` the read timeout in force (the
one given, or two seconds when it is not positive): (1) when a candidate opens and accepts
the timeout and every candidate before it fails, the port of that candidate is returned with
no error, and the driver is called for the candidates before it and for it, for none after
it; (2) an error is returned exactly when every candidate fails; (3) in that case no port is
returned and the error is the one of the last candidate; (4) a port is returned exactly when
no error is, so a nil port never comes with a nil error. -/
theorem openWithBaudAndTimeout_spec (ports : List Candidate) (baudRate : Int)
    (readTimeout : Duration) (hne : ports ≠ []) :
    (∀ (pre post : List Candidate) (c : Candidate), ports = pre ++ c :: post →
      (∀ d ∈ pre, d.failure ≠ none) → c.failure = none →
      OpenWithBaudAndTimeout ports baudRate readTimeout =
        { port := some { port := c.name,
                         readTimeout := if readTimeout ≤ 0 then 2 * second else readTimeout },
          err := none,
          calls := (pre.map (Candidate.failedCalls baudRate
              (if readTimeout ≤ 0 then 2 * second else readTimeout))).flatten ++
            [.open c.name baudRate,
             .setReadTimeout c.name (if readTimeout ≤ 0 then 2 * second else readTimeout)] }) ∧
    ((OpenWithBaudAndTimeout ports baudRate readTimeout).err ≠ none ↔
      ∀ c ∈ ports, c.failure ≠ none) ∧
    ((∀ c ∈ ports, c.failure ≠ none) →
      (OpenWithBaudAndTimeout ports baudRate readTimeout).port = none ∧
      (OpenWithBaudAndTimeout ports baudRate readTimeout).err = (ports.getLast hne).failure ∧
      (OpenWithBaudAndTimeout ports baudRate readTimeout).calls =
        (ports.map (Candidate.failedCalls baudRate
          (if readTimeout ≤ 0 then 2 * second else readTimeout))).flatten) ∧
    ((OpenWithBaudAndTimeout ports baudRate readTimeout).port ≠ none ↔
      (OpenWithBaudAndTimeout ports baudRate readTimeout).err = none) ∧
    ¬ ((OpenWithBaudAndTimeout ports baudRate readTimeout).port = none ∧
      (OpenWithBaudAndTimeout ports baudRate readTimeout).err = none) := by
  have hdef : OpenWithBaudAndTimeout ports baudRate readTimeout =
      openLoop baudRate (if readTimeout ≤ 0 then 2 * second else readTimeout) none ports := rfl
  generalize (if readTimeout ≤ 0 then 2 * second else readTimeout) = rt at hdef ⊢
  rw [hdef]
  have hfirst : ∀ (pre post : List Candidate) (c : Candidate), ports = pre ++ c :: post →
      (∀ d ∈ pre, d.failure ≠ none) → c.failure = none →
      openLoop baudRate rt none ports =
        { port := some { port := c.name, readTimeout := rt }, err := none,
          calls := (pre.map (Candidate.failedCalls baudRate rt)).flatten ++
            [.open c.name baudRate, .setReadTimeout c.name rt] } := by
    intro pre post c hsplit hpre hc
    rw [hsplit]
    exact openLoop_first_success baudRate rt pre post c none hpre hc
  have hall : (∀ c ∈ ports, c.failure ≠ none) →
      (openLoop baudRate rt none ports).port = none ∧
      (openLoop baudRate rt none ports).err = (ports.getLast hne).failure ∧
      (openLoop baudRate rt none ports).calls =
        (ports.map (Candidate.failedCalls baudRate rt)).flatten := by
    intro hfail
    obtain ⟨h1, h2, h3⟩ := openLoop_all_fail baudRate rt ports none hfail
    refine ⟨h1, ?_, h3⟩
    rw [h2, List.getLast?_eq_getLast _ hne]
  rcases candidates_split ports with hfail | ⟨pre, c, post, hsplit, hpre, hc⟩
  · obtain ⟨h1, h2, h3⟩ := hall hfail
    have hlast : (ports.getLast hne).failure ≠ none := hfail _ (List.getLast_mem hne)
    refine ⟨hfirst, ?_, hall, ?_, ?_⟩
    · rw [h2]
      exact ⟨fun _ => hfail, fun _ => hlast⟩
    · rw [h1, h2]
      exact ⟨fun h => absurd rfl h, fun h => absurd h hlast⟩
    · rw [h2]
      exact fun h => hlast h.2
  · have hres := hfirst pre post c hsplit hpre hc
    have hnot : ¬ ∀ d ∈ ports, d.failure ≠ none := by
      intro hfail
      exact hfail c (by rw [hsplit]; simp) hc
    refine ⟨hfirst, ?_, fun h => absurd h hnot, ?_, ?_⟩
    · rw [hres]
      exact ⟨fun h => absurd rfl h, fun h => absurd h hnot⟩
    · rw [hres]
      simp
    · rw [hres]
      simp

/-- C8, amended, on the candidates of `cfgTwoPorts`: the first fails to open, the second is
accepted and returned with no error, after one call for the first. -/
theorem openWithBaudAndTimeout_spec_witness :
    cfgTwoPorts.PORTA ≠ [] ∧
    OpenWithBaudAndTimeout cfgTwoPorts.PORTA 2400 0 =
      { port := some { port := "/dev/ttyUSB1", readTimeout := 2000000000 }, err := none,
        calls := [.open "/dev/ttyUSB0" 2400, .open "/dev/ttyUSB1" 2400,
                  .setReadTimeout "/dev/ttyUSB1" 2000000000] } ∧
    ¬ ((OpenWithBaudAndTimeout cfgTwoPorts.PORTA 2400 0).port = none ∧
      (OpenWithBaudAndTimeout cfgTwoPorts.PORTA 2400 0).err = none) :=
  ⟨by decide,
   (openWithBaudAndTimeout_spec cfgTwoPorts.PORTA 2400 0 (by decide)).1
     [⟨"/dev/ttyUSB0", some "no such file", none⟩] [] ⟨"/dev/ttyUSB1", none, none⟩ rfl
     (by decide) rfl,
   (openWithBaudAndTimeout_spec cfgTwoPorts.PORTA 2400 0 (by decide)).2.2.2.2⟩

/-! ### The poll loop -/

theorem hexChars_length (data : List Byte) : (hexChars data).length = 2 * data.length := by
  induction data with
  | nil => rfl
  | cons b bs ih =>
    simp only [hexChars, byteHex, List.length_append, List.length_cons, List.length_nil, ih]
    omega

theorem truncateHex_eq_hexPreview (resp : List Byte) :
    truncateHex (hexEncodeToString resp) = hexPreview resp := by
  have hlen : (hexEncodeToString resp).length = 2 * resp.length := by
    simp [hexEncodeToString, String.length, hexChars_length]
  unfold truncateHex hexPreview
  rw [hlen]
  by_cases h : resp.length > 30
  · have h2 : 2 * resp.length > 60 := by omega
    simp only [h2, h, if_true, hexEncodeToString]
  · have h2 : ¬ 2 * resp.length > 60 := by omega
    have htake : (hexChars resp).take 60 = hexChars resp :=
      List.take_of_length_le (by rw [hexChars_length]; omega)
    simp only [h2, h, if_false, htake, hexEncodeToString]
    apply String.ext
    simp

theorem connectPhase_no_close (cfg : Config) (s s1 : LoopState) (e1 : List Effect)
    (h : connectPhase cfg s = some (s1, e1)) : Effect.close ∉ e1 := by
  unfold connectPhase at h
  split at h
  · cases h
    simp
  · simp only at h
    split at h
    · cases h
      simp
    · cases h
      simp
    · cases h

theorem pollIteration_eq (cfg : Config) (dev : Device) (queryCmd : List Byte)
    (s s1 : LoopState) (e1 : List Effect) (h : connectPhase cfg s = some (s1, e1)) :
    pollIteration cfg dev queryCmd s =
      some ((exchangePhase cfg dev queryCmd s1).1, e1 ++ (exchangePhase cfg dev queryCmd s1).2) := by
  simp [pollIteration, h]

/-- C9: in an iteration that reaches the exchange with an open port `p`, (1) when
`SendCommand` returns an error the port is closed and dropped and the snapshot is
disconnected, without reading, with the text `Read: ` and the error; (2) when it returns no
error and `ParseResponse` fails, the port is kept and the snapshot is connected, with a
reading that is zero but for `NoData = true` and the text `<n> bytes [<preview>] - <error>`,
where the preview is the first 60 hex characters of the response and `...` only when the
response is longer than 30 bytes (for a 10-byte response: `10 bytes`, all its hex, and the
too-short error); (3) when both succeed the port is kept and the snapshot is connected, with
the decoded reading after `ApplyFullPower` and an empty text; (4) the iteration ends without
a port, closes, and reports disconnected, each exactly when `SendCommand` returned an
error. -/
theorem pollIteration_exchange (cfg : Config) (dev : Device) (queryCmd : List Byte)
    (s s1 : LoopState) (e1 : List Effect) (p : Port)
    (hconn : connectPhase cfg s = some (s1, e1)) (hopen : s1.port = some p) :
    (∀ err, (SendCommand dev s1.io queryCmd).1.2 = some err →
      pollIteration cfg dev queryCmd s =
        some ({ port := none, io := (SendCommand dev s1.io queryCmd).2 },
          e1 ++ [.close, .setDataWithDebug
            { u := none, connected := false, debugMsg := "Read: " ++ err }])) ∧
    ((SendCommand dev s1.io queryCmd).1.2 = none →
      (∀ perr, ParseResponse (SendCommand dev s1.io queryCmd).1.1 = .error perr →
        pollIteration cfg dev queryCmd s =
          some ({ port := some p, io := (SendCommand dev s1.io queryCmd).2 },
            e1 ++ [.setDataWithDebug
              { u := some { UPSData.zero with NoData := true }, connected := true,
                debugMsg := toString (SendCommand dev s1.io queryCmd).1.1.length ++ " bytes [" ++
                  hexPreview (SendCommand dev s1.io queryCmd).1.1 ++ "] - " ++ perr }])) ∧
      ((SendCommand dev s1.io queryCmd).1.1.length = 10 →
        pollIteration cfg dev queryCmd s =
          some ({ port := some p, io := (SendCommand dev s1.io queryCmd).2 },
            e1 ++ [.setDataWithDebug
              { u := some { UPSData.zero with NoData := true }, connected := true,
                debugMsg := "10 bytes [" ++
                  hexEncodeToString (SendCommand dev s1.io queryCmd).1.1 ++ "] - " ++
                  "response too short: 10 bytes" }])) ∧
      (∀ u, ParseResponse (SendCommand dev s1.io queryCmd).1.1 = .ok u →
        pollIteration cfg dev queryCmd s =
          some ({ port := some p, io := (SendCommand dev s1.io queryCmd).2 },
            e1 ++ [.setDataWithDebug
              { u := some (u.ApplyFullPower cfg.SMSUPSFullPower), connected := true,
                debugMsg := "" }]))) ∧
    (∃ s2 pre snap, pollIteration cfg dev queryCmd s =
        some (s2, pre ++ [.setDataWithDebug snap]) ∧
      (s2.port = none ↔ (SendCommand dev s1.io queryCmd).1.2 ≠ none) ∧
      (Effect.close ∈ pre ↔ (SendCommand dev s1.io queryCmd).1.2 ≠ none) ∧
      (snap.connected = false ↔ (SendCommand dev s1.io queryCmd).1.2 ≠ none)) := by
  obtain ⟨port1, io1⟩ := s1
  simp only at hopen
  subst hopen
  have hnc := connectPhase_no_close cfg s _ e1 hconn
  rw [pollIteration_eq cfg dev queryCmd s _ e1 hconn]
  generalize hr : SendCommand dev io1 queryCmd = r
  have hA : ∀ err, r.1.2 = some err →
      exchangePhase cfg dev queryCmd { port := some p, io := io1 } =
        ({ port := none, io := r.2 },
          [.close, .setDataWithDebug
            { u := none, connected := false, debugMsg := "Read: " ++ err }]) := by
    intro err he
    simp [exchangePhase, hr, he]
  have hB : r.1.2 = none → ∀ perr, ParseResponse r.1.1 = .error perr →
      exchangePhase cfg dev queryCmd { port := some p, io := io1 } =
        ({ port := some p, io := r.2 },
          [.setDataWithDebug
            { u := some { UPSData.zero with NoData := true }, connected := true,
              debugMsg := toString r.1.1.length ++ " bytes [" ++ hexPreview r.1.1 ++
                "] - " ++ perr }]) := by
    intro hn perr hp
    simp [exchangePhase, hr, hn, hp, truncateHex_eq_hexPreview, decodeFailureText]
  have hC : r.1.2 = none → ∀ u, ParseResponse r.1.1 = .ok u →
      exchangePhase cfg dev queryCmd { port := some p, io := io1 } =
        ({ port := some p, io := r.2 },
          [.setDataWithDebug
            { u := some (u.ApplyFullPower cfg.SMSUPSFullPower), connected := true,
              debugMsg := "" }]) := by
    intro hn u hp
    simp [exchangePhase, hr, hn, hp]
  refine ⟨?_, ?_, ?_⟩
  · intro err he
    rw [hA err he]
  · intro hn
    refine ⟨?_, ?_, ?_⟩
    · intro perr hp
      rw [hB hn perr hp]
    · intro h10
      have hp := parseResponse_short r.1.1 (by omega)
      rw [hB hn _ hp, h10]
      have hprev : hexPreview r.1.1 = hexEncodeToString r.1.1 := by
        rw [← truncateHex_eq_hexPreview]
        have hlen : (hexEncodeToString r.1.1).length = 20 := by
          simp [hexEncodeToString, String.length, hexChars_length, h10]
        simp [truncateHex, hlen]
      rw [hprev]
      rfl
    · intro u hp
      rw [hC hn u hp]
  · cases he : r.1.2 with
    | some err =>
      rw [hA err he]
      refine ⟨{ port := none, io := r.2 }, e1 ++ [.close],
        { u := none, connected := false, debugMsg := "Read: " ++ err }, ?_, ?_, ?_, ?_⟩
      · simp
      · simp
      · simp
      · simp
    | none =>
      cases hp : ParseResponse r.1.1 with
      | error perr =>
        rw [hB he perr hp]
        refine ⟨{ port := some p, io := r.2 }, e1, _, rfl, ?_, ?_, ?_⟩
        · simp
        · simp [hnc]
        · simp
      | ok u =>
        rw [hC he u hp]
        refine ⟨{ port := some p, io := r.2 }, e1, _, rfl, ?_, ?_, ?_⟩
        · simp
        · simp [hnc]
        · simp

/-- C9 on concrete runs, from no port and the candidates of `cfgTwoPorts`: on the line
`devTenBytes` the response has ten bytes, the port is kept and the snapshot is connected with
`NoData` and the text of scenario B; on the line `devShortThenFail` the read error closes
the port and the snapshot is disconnected. -/
theorem pollIteration_exchange_witness :
    pollIteration cfgTwoPorts devTenBytes QueryCommand
        { port := none, io := { writes := 0, reads := 0 } } =
      some ({ port := some { port := "/dev/ttyUSB1", readTimeout := 2000000000 },
              io := { writes := 7, reads := 5 } },
        [.wake, .setDataWithDebug { u := none, connected := true, debugMsg := "" },
         .setDataWithDebug
           { u := some { UPSData.zero with NoData := true }, connected := true,
             debugMsg := "10 bytes [3d010203040506070809] - response too short: 10 bytes" }]) ∧
    pollIteration cfgTwoPorts devShortThenFail QueryCommand
        { port := none, io := { writes := 0, reads := 0 } } =
      some ({ port := none, io := { writes := 7, reads := 3 } },
        [.wake, .setDataWithDebug { u := none, connected := true, debugMsg := "" },
         .close,
         .setDataWithDebug { u := none, connected := false, debugMsg := "Read: timeout" }]) := by
  have hconn : connectPhase cfgTwoPorts { port := none, io := { writes := 0, reads := 0 } } =
      some ({ port := some { port := "/dev/ttyUSB1", readTimeout := 2000000000 },
              io := { writes := 0, reads := 0 } },
        [.wake, .setDataWithDebug { u := none, connected := true, debugMsg := "" }]) := by
    decide
  constructor
  · have h := (pollIteration_exchange cfgTwoPorts devTenBytes QueryCommand _ _ _ _ hconn rfl).2.1
      (by decide) |>.2.1 (by decide)
    rw [h]
    decide
  · have h := (pollIteration_exchange cfgTwoPorts devShortThenFail QueryCommand _ _ _ _
      hconn rfl).1 "timeout" (by decide)
    rw [h]
    decide

/-! ### `SendCommand` -/

theorem writeLoop_ok (dev : Device) (cmd : List Byte) (k : Nat)
    (hw : ∀ j, j < cmd.length → dev.writeResult (k + j) = none) :
    writeLoop dev cmd k = (none, k + cmd.length) := by
  induction cmd generalizing k with
  | nil => rfl
  | cons b rest ih =>
    have h0 : dev.writeResult k = none := by simpa using hw 0 (by simp)
    have hrest : ∀ j, j < rest.length → dev.writeResult (k + 1 + j) = none := by
      intro j hj
      have := hw (j + 1) (by simp; omega)
      rwa [show k + (j + 1) = k + 1 + j by omega] at this
    simp only [writeLoop, h0, ih (k + 1) hrest, List.length_cons]
    congr 1
    omega

theorem readBytes_succ_last (dev : Device) (k m : Nat) :
    readBytes dev k (m + 1) = readBytes dev k m ++ (dev.readResult (k + m)).bytes := by
  induction m generalizing k with
  | zero => simp [readBytes]
  | succ n ih =>
    rw [readBytes, ih (k + 1), readBytes, List.append_assoc]
    rw [show k + 1 + n = k + (n + 1) by omega]

/-- What the read loop does, for any number of remaining cycles, from any point of the line
and any accumulated prefix shorter than 18 bytes. -/
theorem readLoop_spec (dev : Device)
    (hr : ∀ k chunk, dev.readResult k = .data chunk → chunk.length ≤ 32)
    (remaining k : Nat) (total : List Byte) (ht : total.length < 18) :
    ∃ m, m ≤ remaining ∧ (1 ≤ remaining → 1 ≤ m) ∧
      (readLoop dev remaining k total).2 = k + m ∧
      (readLoop dev remaining k total).1.1 = total ++ readBytes dev k m ∧
      (∀ j, j < m → (total ++ readBytes dev k j).length < 18) ∧
      (∀ j, j + 1 < m → ∃ c, dev.readResult (k + j) = .data c) ∧
      (∀ e, (readLoop dev remaining k total).1.2 = some e ↔
        (1 ≤ m ∧ dev.readResult (k + (m - 1)) = .fail e)) ∧
      (m < remaining → (readLoop dev remaining k total).1.2 ≠ none ∨
        18 ≤ (readLoop dev remaining k total).1.1.length) ∧
      (readLoop dev remaining k total).1.1.length ≤ 49 := by
  induction remaining generalizing k total with
  | zero =>
    refine ⟨0, le_refl _, by omega, rfl, by simp [readLoop, readBytes], ?_, ?_, ?_, ?_, ?_⟩
    · intro j hj
      omega
    · intro j hj
      omega
    · intro e
      simp [readLoop]
    · intro h
      omega
    · simp only [readLoop]
      omega
  | succ n ih =>
    cases hk : dev.readResult k with
    | fail err =>
      refine ⟨1, by omega, fun _ => le_refl _, by simp [readLoop, hk], ?_, ?_, ?_, ?_, ?_, ?_⟩
      · simp [readLoop, hk, readBytes, ReadOutcome.bytes]
      · intro j hj
        have : j = 0 := by omega
        subst this
        simpa [readBytes] using ht
      · intro j hj
        omega
      · intro e
        simp [readLoop, hk]
      · intro _
        left
        simp [readLoop, hk]
      · simp only [readLoop, hk]
        omega
    | data chunk =>
      have hc := hr k chunk hk
      by_cases hstop : chunk.length > 0 ∧ 18 ≤ (total ++ chunk).length
      · obtain ⟨hpos, hfull⟩ := hstop
        have hval : readLoop dev (n + 1) k total = ((total ++ chunk, none), k + 1) := by
          simp only [readLoop, hk, hpos, if_true]
          simp only [ge_iff_le, hfull, if_true]
        rw [hval]
        refine ⟨1, by omega, fun _ => le_refl _, rfl, ?_, ?_, ?_, ?_, ?_, ?_⟩
        · simp [readBytes, hk, ReadOutcome.bytes]
        · intro j hj
          have : j = 0 := by omega
          subst this
          simpa [readBytes] using ht
        · intro j hj
          omega
        · intro e
          simp [hk]
        · intro _
          right
          exact hfull
        · simp only [List.length_append] at *
          omega
      · have hlt : (total ++ chunk).length < 18 := by
          by_cases hpos : chunk.length > 0
          · have := fun h => hstop ⟨hpos, h⟩
            omega
          · have h0 : chunk = [] := List.length_eq_zero.mp (by omega)
            simpa [h0] using ht
        have hval : readLoop dev (n + 1) k total = readLoop dev n (k + 1) (total ++ chunk) := by
          by_cases hpos : chunk.length > 0
          · have hnf : ¬ 18 ≤ (total ++ chunk).length := by omega
            simp only [readLoop, hk, hpos, if_true]
            simp only [ge_iff_le, hnf, if_false]
          · have h0 : chunk = [] := List.length_eq_zero.mp (by omega)
            simp [readLoop, hk, h0]
        rw [hval]
        obtain ⟨m, hm, hm1, h2, h1, hacc, hdata, herr, hfin, hlen⟩ :=
          ih (k + 1) (total ++ chunk) hlt
        have hb : ∀ j, total ++ readBytes dev k (j + 1) =
            total ++ chunk ++ readBytes dev (k + 1) j := by
          intro j
          simp [readBytes, hk, ReadOutcome.bytes]
        refine ⟨m + 1, by omega, fun _ => by omega, by rw [h2]; omega, ?_, ?_, ?_, ?_, ?_,
          hlen⟩
        · rw [h1, hb]
        · intro j hj
          cases j with
          | zero => simpa [readBytes] using ht
          | succ i =>
            rw [hb]
            exact hacc i (by omega)
        · intro j hj
          cases j with
          | zero => exact ⟨chunk, hk⟩
          | succ i =>
            obtain ⟨c, hc2⟩ := hdata i (by omega)
            exact ⟨c, by rw [show k + (i + 1) = k + 1 + i by omega]; exact hc2⟩
        · intro e
          rw [herr e]
          constructor
          · rintro ⟨hge, hf⟩
            refine ⟨by omega, ?_⟩
            rw [show k + (m + 1 - 1) = k + 1 + (m - 1) by omega]
            exact hf
          · rintro ⟨_, hf⟩
            have hge : 1 ≤ m := by
              by_contra hlt0
              have hm0 : m = 0 := by omega
              subst hm0
              simp [hk] at hf
            refine ⟨hge, ?_⟩
            rw [show k + 1 + (m - 1) = k + (m + 1 - 1) by omega]
            exact hf
        · intro hlt2
          exact hfin (by omega)

theorem readBytes_length_mono (dev : Device) (k m n : Nat) (h : m ≤ n) :
    (readBytes dev k m).length ≤ (readBytes dev k n).length := by
  induction n with
  | zero =>
    have : m = 0 := by omega
    subst this
    exact le_refl _
  | succ i ih =>
    by_cases hm : m = i + 1
    · subst hm
      exact le_refl _
    · have := ih (by omega)
      rw [readBytes_succ_last, List.length_append]
      omega

/-- C10: when every write of the command succeeds and every read delivers at most 32 bytes,
`SendCommand` performs `m` reads with `1 ≤ m ≤ 5`; it returns the bytes of those reads in
order; before each read it performed fewer than 18 bytes had accumulated, and every read but
the last delivered data; it returns an error exactly when its last read failed, with that
error and the bytes accumulated before it; it stops before the fifth read only on an error
or with 18 bytes or more; when all five reads deliver data and fewer than 18 bytes in total
it returns them with no error; the returned buffer has at most 49 bytes. -/
theorem sendCommand_reads (dev : Device) (io : IOState) (cmd : List Byte)
    (hw : ∀ j, j < cmd.length → dev.writeResult (io.writes + j) = none)
    (hr : ∀ k chunk, dev.readResult k = .data chunk → chunk.length ≤ 32) :
    ∃ m, 1 ≤ m ∧ m ≤ 5 ∧
      (SendCommand dev io cmd).2 =
        { writes := io.writes + cmd.length, reads := io.reads + m } ∧
      (SendCommand dev io cmd).1.1 = readBytes dev io.reads m ∧
      (∀ j, j < m → (readBytes dev io.reads j).length < 18) ∧
      (∀ j, j + 1 < m → ∃ c, dev.readResult (io.reads + j) = .data c) ∧
      (∀ e, (SendCommand dev io cmd).1.2 = some e ↔
        dev.readResult (io.reads + (m - 1)) = .fail e) ∧
      (∀ e, (SendCommand dev io cmd).1.2 = some e →
        (SendCommand dev io cmd).1.1 = readBytes dev io.reads (m - 1)) ∧
      (m < 5 → (SendCommand dev io cmd).1.2 ≠ none ∨
        18 ≤ (SendCommand dev io cmd).1.1.length) ∧
      ((∀ j, j < 5 → ∃ c, dev.readResult (io.reads + j) = .data c) →
        (readBytes dev io.reads 5).length < 18 →
        (SendCommand dev io cmd).1 = (readBytes dev io.reads 5, none)) ∧
      (SendCommand dev io cmd).1.1.length ≤ 49 := by
  have hsend : SendCommand dev io cmd =
      ((readLoop dev 5 io.reads []).1,
        { writes := io.writes + cmd.length, reads := (readLoop dev 5 io.reads []).2 }) := by
    simp [SendCommand, writeLoop_ok dev cmd io.writes hw]
  obtain ⟨m, hm5, hm1, h2, h1, hacc, hdata, herr, hfin, hlen⟩ :=
    readLoop_spec dev hr 5 io.reads [] (by simp)
  have hm1 : 1 ≤ m := hm1 (by omega)
  simp only [List.nil_append] at h1 hacc
  rw [hsend]
  simp only
  have herr2 : ∀ e, (readLoop dev 5 io.reads []).1.2 = some e ↔
      dev.readResult (io.reads + (m - 1)) = .fail e := by
    intro e
    rw [herr e]
    exact ⟨fun h => h.2, fun h => ⟨hm1, h⟩⟩
  refine ⟨m, hm1, hm5, by rw [h2], h1, hacc, hdata, herr2, ?_, hfin, ?_, hlen⟩
  · intro e he
    have hf := (herr2 e).mp he
    rw [h1]
    obtain ⟨i, rfl⟩ : ∃ i, m = i + 1 := ⟨m - 1, by omega⟩
    rw [readBytes_succ_last]
    simp only [Nat.add_sub_cancel] at hf ⊢
    rw [hf]
    simp [ReadOutcome.bytes]
  · intro hall hshort
    have hnone : (readLoop dev 5 io.reads []).1.2 = none := by
      cases he : (readLoop dev 5 io.reads []).1.2 with
      | none => rfl
      | some e =>
        have hf := (herr2 e).mp he
        obtain ⟨c, hc⟩ := hall (m - 1) (by omega)
        rw [hc] at hf
        cases hf
    have hm : m = 5 := by
      by_contra hne
      rcases hfin (by omega) with h | h
      · exact h hnone
      · rw [h1] at h
        have := readBytes_length_mono dev io.reads m 5 hm5
        omega
    subst hm
    exact Prod.ext h1 hnone

/-- C10 on the line `devShortThenFail`: ten bytes, nothing, then a timeout. Three reads are
made, and the ten bytes come back with the timeout error. -/
theorem sendCommand_reads_witness :
    (SendCommand devShortThenFail { writes := 0, reads := 0 } QueryCommand).1 =
      ([0x3D, 0x01, 0x02, 0x03, 0x04, 0x05, 0x06, 0x07, 0x08, 0x09], some "timeout") ∧
    ∃ m, 1 ≤ m ∧ m ≤ 5 ∧
      (SendCommand devShortThenFail { writes := 0, reads := 0 } QueryCommand).2 =
        { writes := 7, reads := m } ∧
      (SendCommand devShortThenFail { writes := 0, reads := 0 } QueryCommand).1.1.length
        ≤ 49 := by
  have hr : ∀ k chunk, devShortThenFail.readResult k = .data chunk → chunk.length ≤ 32 := by
    intro k chunk h
    simp only [devShortThenFail] at h
    split_ifs at h <;> cases h <;> decide
  obtain ⟨m, h1, h5, hio, _, _, _, _, _, _, _, hlen⟩ :=
    sendCommand_reads devShortThenFail { writes := 0, reads := 0 } QueryCommand
      (fun _ _ => rfl) hr
  exact ⟨by decide, m, h1, h5, by simpa [QueryCommand] using hio, hlen⟩

/-! ### The status query and its checksum -/

/-- C11: the status-query command agrees with `Checksum`: its first five bytes are
`51 FF FF FF FF`, `Checksum` of them is its sixth byte `0xB3`, and the command is those five
bytes followed by their checksum and by `0x0D`. -/
theorem queryCommand_checksum :
    QueryCommand.take 5 = [0x51, 0xff, 0xff, 0xff, 0xff] ∧
    Checksum [0x51, 0xff, 0xff, 0xff, 0xff] = 0xb3 ∧
    QueryCommand[5]? = some (Checksum (QueryCommand.take 5)) ∧
    QueryCommand =
      [0x51, 0xff, 0xff, 0xff, 0xff] ++ [Checksum [0x51, 0xff, 0xff, 0xff, 0xff]] ++ [0x0d] := by
  have hsum : byteSum [0x51, 0xff, 0xff, 0xff, 0xff] = 1101 := by decide
  have hck : Checksum [0x51, 0xff, 0xff, 0xff, 0xff] = 0xb3 := by
    rw [Fin.ext_iff, checksum_val, hsum]
    rfl
  have htake : QueryCommand.take 5 = [0x51, 0xff, 0xff, 0xff, 0xff] := rfl
  refine ⟨htake, hck, ?_, ?_⟩
  · rw [htake, hck]
    rfl
  · rw [hck]
    rfl

end SmsUps
